import Mathlib

/-!
Verification development for the local network orchestrator
(`tools/local_network.py` of mobilecoinofficial/full-service).

The Python classes `QuorumSet`, `Peer`, `Node`, `Network` and the TCP
control-server handler are embedded shallowly: pure computations become
Lean functions; the per-node process handles become explicit state; OS
effects (spawning processes, writing files) are recorded as events or
reflected in the state; fallible steps return `Except`/`Option`.
-/

namespace LocalNetwork

/-! ## Module constants (local_network.py lines 24-40) -/

def BASE_CLIENT_PORT : Nat := 3200

def BASE_PEER_PORT : Nat := 3300

def BASE_ADMIN_PORT : Nat := 3400

def BASE_ADMIN_HTTP_GATEWAY_PORT : Nat := 3500

def CLI_PORT : Nat := 31337

/-- Work directory for the local network.  In the source this is an
absolute host path (`MOBILECOIN_DIR/target/release/mc-local-network`);
its concrete prefix is host dependent and irrelevant to the claims, so
it is modelled by its final path component. -/
def WORK_DIR : String := "mc-local-network"

/-! ## Topology model: QuorumSet (lines 53-71)

A Python `QuorumSet.members` list may hold plain name strings, nested
`QuorumSet` objects, or values of any other Python type (which
`resolve_to_json` rejects).  `Member.minner t ms` is a nested quorum set
carrying its own threshold and members; `Member.mother` stands for a
member of any unsupported type. -/

inductive Member : Type where
  | mname (s : String)
  | minner (threshold : Int) (members : List Member)
  | mother
deriving Repr

structure QuorumSet where
  threshold : Int
  members : List Member
deriving Repr

/-- Resolved wire structure produced by `resolve_to_json`: each entry is
either a resolved node address or a recursively resolved inner set. -/
inductive RMember : Type where
  | node (args : String)
  | innerSet (threshold : Int) (members : List RMember)
deriving Repr

structure RJson where
  threshold : Int
  members : List RMember
deriving Repr

mutual

/-- One member of `QuorumSet.resolve_to_json`'s loop (lines 60-67): a
name is looked up in `nodes_by_name` (a missing name is a Python
`KeyError`), a nested set recurses, any other member type raises. -/
def resolveMember (lookup : String → Option Nat) : Member → Except String RMember
  | .mname s =>
    match lookup s with
    | some p => .ok (.node ("localhost:" ++ toString p))
    | none => .error ("KeyError: " ++ s)
  | .minner t ms =>
    match resolveMembers lookup ms with
    | .ok rs => .ok (.innerSet t rs)
    | .error e => .error e
  | .mother => .error "Unsupported member type"

/-- Members are resolved in list order; the first failure propagates. -/
def resolveMembers (lookup : String → Option Nat) : List Member → Except String (List RMember)
  | [] => .ok []
  | m :: ms =>
    match resolveMember lookup m with
    | .error e => .error e
    | .ok r =>
      match resolveMembers lookup ms with
      | .error e => .error e
      | .ok rs => .ok (r :: rs)

end

/-- QuorumSet.resolve_to_json (lines 58-71).  `lookup` abstracts
`nodes_by_name[name].peer_port`. -/
def QuorumSet.resolve_to_json (q : QuorumSet) (lookup : String → Option Nat) :
    Except String RJson :=
  match resolveMembers lookup q.members with
  | .ok rs => .ok ⟨q.threshold, rs⟩
  | .error e => .error e

mutual

/-- Every name occurring (recursively) in the member is present in the
lookup map — the premise "nodes_by_name contains all named members". -/
def Member.namesPresent (lookup : String → Option Nat) : Member → Bool
  | .mname s => (lookup s).isSome
  | .minner _ ms => membersNamesPresent lookup ms
  | .mother => true

def membersNamesPresent (lookup : String → Option Nat) : List Member → Bool
  | [] => true
  | m :: ms => Member.namesPresent lookup m && membersNamesPresent lookup ms

end

mutual

/-- Whether a member of an unsupported Python type occurs recursively. -/
def Member.hasOther : Member → Bool
  | .mname _ => false
  | .minner _ ms => membersHaveOther ms
  | .mother => true

def membersHaveOther : List Member → Bool
  | [] => false
  | m :: ms => Member.hasOther m || membersHaveOther ms

end

def QuorumSet.namesPresent (q : QuorumSet) (lookup : String → Option Nat) : Bool :=
  membersNamesPresent lookup q.members

def QuorumSet.hasOther (q : QuorumSet) : Bool :=
  membersHaveOther q.members

mutual

/-- Modelled from the spec (section 4.1), as the reference for claim C4:
"each member that is a plain name becomes `\x7btype: Node, args:
host:port\x7d` (port looked up by name); each member that is itself a
QuorumSet becomes `\x7btype: InnerSet, args: recursive\x7d`.  Any other
member type is an error." -/
def specResolveMember (lookup : String → Option Nat) : Member → Option RMember
  | .mname s =>
    match lookup s with
    | some p => some (.node ("localhost:" ++ toString p))
    | none => none
  | .minner t ms =>
    match specResolveMembers lookup ms with
    | some rs => some (.innerSet t rs)
    | none => none
  | .mother => none

def specResolveMembers (lookup : String → Option Nat) : List Member → Option (List RMember)
  | [] => some []
  | m :: ms =>
    match specResolveMember lookup m with
    | none => none
    | some r =>
      match specResolveMembers lookup ms with
      | none => none
      | some rs => some (r :: rs)

end

mutual

/-- Quorum-set invariant claimed by the spec, on an unresolved member:
every nested inner set has `threshold <= len(members)`. -/
def Member.inv : Member → Bool
  | .mname _ => true
  | .minner t ms => decide (t ≤ (ms.length : Int)) && membersInv ms
  | .mother => true

def membersInv : List Member → Bool
  | [] => true
  | m :: ms => Member.inv m && membersInv ms

end

def QuorumSet.inv (q : QuorumSet) : Bool :=
  decide (q.threshold ≤ (q.members.length : Int)) && membersInv q.members

mutual

/-- The spec's quorum-set invariant on the resolved wire structure. -/
def RMember.inv : RMember → Bool
  | .node _ => true
  | .innerSet t rs => decide (t ≤ (rs.length : Int)) && rmembersInv rs

def rmembersInv : List RMember → Bool
  | [] => true
  | r :: rs => RMember.inv r && rmembersInv rs

end

def RJson.inv (r : RJson) : Bool :=
  decide (r.threshold ≤ (r.members.length : Int)) && rmembersInv r.members

/-! ## Peer and process handles -/

/-- Peer (lines 74-80): a directed edge to a named node, with the
`broadcast_consensus_msgs` flag. -/
structure Peer where
  name : String
  broadcast_consensus_msgs : Bool
deriving Repr, DecidableEq

/-- A `subprocess.Popen` slot: Python `None`, or a process object with
its pid and the result `poll()` would return (`none` while the process
is still running, `some code` once it has exited).  A non-`null` handle
is truthy in Python regardless of `poll()`. -/
inductive Handle : Type where
  | null
  | proc (pid : Nat) (exitCode : Option Int)
deriving Repr, DecidableEq

/-- Python truthiness of the handle (`if self.xxx_process:`). -/
def Handle.isSet : Handle → Bool
  | .null => false
  | .proc _ _ => true

/-- Whether the handle holds a live process (`poll() is None`). -/
def Handle.isRunning : Handle → Bool
  | .proc _ none => true
  | _ => false

/-- Whether the handle holds a process that has already exited. -/
def Handle.isExited : Handle → Bool
  | .proc _ (some _) => true
  | _ => false

/-! ## Node (lines 83-275) -/

structure Node where
  name : String
  node_num : Nat
  client_port : Nat
  peer_port : Nat
  admin_port : Nat
  admin_http_gateway_port : Nat
  peers : List Peer
  quorum_set : QuorumSet
  minimum_fee : Nat
  block_version : Int
  /-- Base64url form of the node's message-signer public key.  In the
  source the private key is generated by `openssl` in `__init__` and the
  public part derived in `peer_uri`; the derived string is modelled as
  data fixed at construction. -/
  pubkey : String
  consensus_process : Handle
  ledger_distribution_process : Handle
  admin_http_gateway_process : Handle
deriving Repr

/-- Python `block_version or 2` (line 98): `None` and `0` are falsy. -/
def pyOrTwo : Option Int → Int
  | none => 2
  | some v => if v = 0 then 2 else v

/-- Node.__init__ (lines 84-107).  All three process handles start out
`None`; `minimum_fee` is the hardcoded 400_000_000; `block_version` is
`block_version or 2`. -/
def Node.init (name : String) (node_num client_port peer_port admin_port
    admin_http_gateway_port : Nat) (peers : List Peer) (quorum_set : QuorumSet)
    (block_version : Option Int) (pubkey : String) : Node :=
  { name := name
    node_num := node_num
    client_port := client_port
    peer_port := peer_port
    admin_port := admin_port
    admin_http_gateway_port := admin_http_gateway_port
    peers := peers
    quorum_set := quorum_set
    minimum_fee := 400000000
    block_version := pyOrTwo block_version
    pubkey := pubkey
    consensus_process := .null
    ledger_distribution_process := .null
    admin_http_gateway_process := .null }

/-- Node.status (lines 253-260). -/
def Node.status (n : Node) : String :=
  match n.consensus_process with
  | .null => "stopped"
  | .proc _ (some _) => "exited"
  | .proc pid none => "running, pid=" ++ toString pid

/-- The effect of Node.stop on one handle: the source guards each
branch with `if self.xxx_process and self.xxx_process.poll() is None:`,
so only a handle whose process is still running is terminated and
cleared; a `None` handle, or a handle whose process has already exited,
is left untouched. -/
def stopHandle : Handle → Handle
  | .proc _ none => .null
  | h => h

/-- Node.stop (lines 262-275). -/
def Node.stop (n : Node) : Node :=
  { n with
    consensus_process := stopHandle n.consensus_process
    ledger_distribution_process := stopHandle n.ledger_distribution_process
    admin_http_gateway_process := stopHandle n.admin_http_gateway_process }

/-- Node.peer_uri (lines 109-114). -/
def Node.peer_uri (n : Node) (broadcast_consensus_msgs : Bool) : String :=
  "insecure-mcp://localhost:" ++ toString n.peer_port ++ "/?consensus-msg-key="
    ++ n.pubkey ++ "&broadcast-consensus-msgs="
    ++ (if broadcast_consensus_msgs then "1" else "0")

/-- Per-node ledger-distribution directory (line 104). -/
def Node.ledger_distribution_dir (n : Node) : String :=
  WORK_DIR ++ "/node-ledger-distribution-" ++ toString n.node_num

/-! ## Topology JSON assembled by Node.start (lines 130-157) -/

/-- The dict comprehension `\x7bnode.name: node for node in
network.nodes\x7d` (line 131); on duplicate names the last entry wins. -/
def nodesByName (nodes : List Node) (s : String) : Option Node :=
  (nodes.filter (fun nd => nd.name == s)).getLast?

/-- Broadcast-peer URIs (lines 138-140); `none` models the `KeyError`
raised when a peer name is not in `nodes_by_name`. -/
def broadcastPeers (self : Node) (networkNodes : List Node) : Option (List String) :=
  self.peers.mapM (fun p =>
    (nodesByName networkNodes p.name).map (fun nd =>
      nd.peer_uri p.broadcast_consensus_msgs))

/-- Known-peer URIs (lines 143-145): every network node that is neither
a direct peer nor the node itself, with broadcast defaulted to true. -/
def knownPeers (self : Node) (networkNodes : List Node) : List String :=
  let peerNames := self.peers.map Peer.name
  (networkNodes.filter (fun nd =>
    !(peerNames.contains nd.name) && nd.name != self.name)).map
    (fun nd => nd.peer_uri true)

/-- tx_source_urls (line 146): the ledger-distribution directory URL of
every network node whose name appears in the node's peer list — note
the filter is on `peer_names`, which includes peers regardless of their
`broadcast_consensus_msgs` flag. -/
def txSourceUrls (self : Node) (networkNodes : List Node) : List String :=
  let peerNames := self.peers.map Peer.name
  (networkNodes.filter (fun nd => peerNames.contains nd.name)).map
    (fun nd => "file://" ++ nd.ledger_distribution_dir)

/-- Contents of the per-node `node<N>-network.json` file (lines 149-154). -/
structure TopologyJson where
  quorum_set : RJson
  broadcast_peers : List String
  known_peers : List String
  tx_source_urls : List String
deriving Repr

/-- Assembles the topology JSON in source order: the peer URIs are built
(line 138) before the quorum set is resolved (line 150), so a missing
peer name raises before a missing quorum-set name. -/
def topologyJson (self : Node) (networkNodes : List Node) : Except String TopologyJson :=
  match broadcastPeers self networkNodes with
  | none => .error "KeyError: peer name"
  | some bps =>
    match self.quorum_set.resolve_to_json
        (fun s => (nodesByName networkNodes s).map Node.peer_port) with
    | .error e => .error e
    | .ok qj =>
      .ok ⟨qj, bps, knownPeers self networkNodes, txSourceUrls self networkNodes⟩

/-! ## Node.start (lines 119-251)

OS effects are recorded as events.  Deterministic key derivations via
`openssl`/`subprocess.check_output` are modelled as pure data; process
spawns and sidecar terminations, and the two config-file writes, appear
in the trace. -/

inductive Event : Type where
  | terminateSidecar (which : String)
  | writeNetworkJson (path : String) (topology : TopologyJson)
  | writeTokensConfig (path : String)
  | signGovernors
  | spawnConsensus (pid : Nat)
  | spawnLedgerDistribution (pid : Nat)
  | spawnAdminHttpGateway (pid : Nat)
deriving Repr

/-- Outcome of the readiness busy-wait (lines 226-232): either the
ledger database file eventually appears while the consensus process is
still alive, or `poll()` observes the process exit first.  The loop has
no timeout; a run in which neither ever happens does not terminate and
is outside this model. -/
inductive LedgerWait : Type where
  | appears
  | crashes (code : Int)
deriving Repr

/-- Environment choices made by the OS during one `Node.start` call:
the pids of the up-to-three spawned processes and the readiness
outcome. -/
structure StartEnv where
  consensusPid : Nat
  ledgerDistPid : Nat
  adminGwPid : Nat
  ledgerWait : LedgerWait
deriving Repr

/-- Result of one `Node.start` call: the trace of OS effects, the node
object after the call (Python mutations persist even when an exception
propagates), and the exception if one was raised. -/
structure StartResult where
  trace : List Event
  node : Node
  error : Option String
deriving Repr

/-- Node.start (lines 119-251).  `networkNodes` is `network.nodes`.
`governorKeysExist` records whether `MINTING_KEYS_DIR/governor*.pub`
exist (written by `Network.generate_minting_keys`); reading them when
absent raises `FileNotFoundError`. -/
def Node.start (self : Node) (networkNodes : List Node)
    (governorKeysExist : Bool) (env : StartEnv) : StartResult :=
  -- line 120: `assert not self.consensus_process`, before any effect
  if self.consensus_process.isSet then
    ⟨[], self, some "AssertionError"⟩
  else
    -- lines 122-128: terminate previously tracked sidecars (no poll check)
    let (tr1, n1) :=
      match self.ledger_distribution_process with
      | .null => (([] : List Event), self)
      | .proc _ _ => ([Event.terminateSidecar "ledger-distribution"],
          { self with ledger_distribution_process := .null })
    let (tr2, n2) :=
      match n1.admin_http_gateway_process with
      | .null => (tr1, n1)
      | .proc _ _ => (tr1 ++ [Event.terminateSidecar "admin-http-gateway"],
          { n1 with admin_http_gateway_process := .null })
    -- lines 130-157: assemble and write the topology JSON
    match topologyJson n2 networkNodes with
    | .error e => ⟨tr2, n2, some e⟩
    | .ok topo =>
      let tr3 := tr2 ++ [Event.writeNetworkJson
        ("node" ++ toString n2.node_num ++ "-network.json") topo]
      -- lines 164-196: tokens config needs the governor public keys
      if !governorKeysExist then
        ⟨tr3, n2, some "FileNotFoundError: governor1.pub"⟩
      else
        let tr4 := tr3 ++ [Event.writeTokensConfig
          ("node-tokens-" ++ toString n2.node_num ++ ".json"), Event.signGovernors]
        -- line 223: spawn the consensus service
        let n3 := { n2 with consensus_process := .proc env.consensusPid none }
        let tr5 := tr4 ++ [Event.spawnConsensus env.consensusPid]
        match env.ledgerWait with
        | .crashes code =>
          -- lines 228-230: the process exited; `return self.stop()`
          let n4 := { n3 with
            consensus_process := .proc env.consensusPid (some code) }
          ⟨tr5, n4.stop, none⟩
        | .appears =>
          -- lines 235-251: spawn the two sidecars
          let n4 := { n3 with
            ledger_distribution_process := .proc env.ledgerDistPid none }
          let tr6 := tr5 ++ [Event.spawnLedgerDistribution env.ledgerDistPid]
          let n5 := { n4 with
            admin_http_gateway_process := .proc env.adminGwPid none }
          ⟨tr6 ++ [Event.spawnAdminHttpGateway env.adminGwPid], n5, none⟩

/-! ## Network (lines 346-489) -/

structure Network where
  nodes : List Node
  /-- Shared block version handed to every `Node`; in the source it is
  assigned in `default_entry_point` before any `add_node` call. -/
  block_version : Option Int
  /-- Whether `MINTING_KEYS_DIR` exists.  `Network.__init__` wipes and
  recreates the enclosing work directory, so it starts out absent. -/
  mintingKeysDirExists : Bool
  /-- Whether the control-server thread handle (`self.cli`) is set. -/
  cli : Bool
deriving Repr

/-- Network.__init__ (lines 347-355) plus the `block_version` attribute
assigned in `default_entry_point` (line 447). -/
def Network.new (block_version : Option Int) : Network :=
  { nodes := [], block_version := block_version, mintingKeysDirExists := false,
    cli := false }

/-- Network.add_node (lines 357-369): the new node's index is the
current length of the node list and all four ports are base + index.
`pubkey` stands for the fresh key material generated in `Node.__init__`. -/
def Network.add_node (net : Network) (name : String) (peers : List Peer)
    (quorum_set : QuorumSet) (pubkey : String) : Network :=
  let node_num := net.nodes.length
  { net with nodes := net.nodes ++ [Node.init name node_num
      (BASE_CLIENT_PORT + node_num) (BASE_PEER_PORT + node_num)
      (BASE_ADMIN_PORT + node_num) (BASE_ADMIN_HTTP_GATEWAY_PORT + node_num)
      peers quorum_set net.block_version pubkey] }

/-- Network.get_node (lines 371-374): first node with a matching name,
`None` when absent. -/
def Network.get_node (net : Network) (name : String) : Option Node :=
  net.nodes.find? (fun nd => nd.name == name)

/-- Network.generate_minting_keys (lines 376-390): `os.mkdir` raises
`FileExistsError` when the directory already exists; otherwise the
governor keys and the minting trust root are (re)generated. -/
def Network.generate_minting_keys (net : Network) : Except String Network :=
  if net.mintingKeysDirExists then .error "FileExistsError: minting-keys"
  else .ok { net with mintingKeysDirExists := true }

/-- Effect of the `pkill -9` sweep in Network.stop on one handle: the
OS process dies, so a later `poll()` reports signal exit; the Python
handle object itself is not cleared. -/
def killHandle : Handle → Handle
  | .proc pid none => .proc pid (some (-9))
  | h => h

/-- Network.stop (lines 426-444): shuts down the control server and
best-effort kills every known binary by name.  Node process handles are
not cleared (only the underlying OS processes die). -/
def Network.stop (net : Network) : Network :=
  { net with
    cli := false
    nodes := net.nodes.map (fun nd =>
      { nd with
        consensus_process := killHandle nd.consensus_process
        ledger_distribution_process := killHandle nd.ledger_distribution_process
        admin_http_gateway_process := killHandle nd.admin_http_gateway_process }) }

/-- The sequential `for node in self.nodes: node.start(self)` loop of
Network.start (lines 399-400): each node is started against the current
node list (earlier nodes already mutated); an uncaught exception from
one node aborts the loop. -/
def startNodesSeq (envs : Nat → StartEnv) (governorKeysExist : Bool) :
    Nat → Nat → List Node → List Node × Option String
  | 0, _, nodes => (nodes, none)
  | k + 1, i, nodes =>
    match nodes[i]? with
    | none => (nodes, none)
    | some nd =>
      let r := nd.start nodes governorKeysExist (envs i)
      let nodes' := nodes.set i r.node
      match r.error with
      | some e => (nodes', some e)
      | none => startNodesSeq envs governorKeysExist k (i + 1) nodes'

/-- Network.start (lines 392-404): stop (best-effort pkill), generate
minting keys (raises `FileExistsError` if the directory already
exists), start each node sequentially, then start the control server.
The work directory is NOT recreated here — only `Network.__init__`
does that. -/
def Network.start (net : Network) (envs : Nat → StartEnv) :
    Network × Option String :=
  let net1 := Network.stop net
  match net1.generate_minting_keys with
  | .error e => (net1, some e)
  | .ok net2 =>
    let (nodes', err) := startNodesSeq envs true net2.nodes.length 0 net2.nodes
    match err with
    | some e => ({ net2 with nodes := nodes' }, some e)
    | none => ({ net2 with nodes := nodes', cli := true }, none)

/-! ## Control server (NetworkCLI, lines 278-343)

The per-connection handler sends an initial prompt, then loops: read a
line, skip it silently when empty, otherwise dispatch on the first word
and send the response followed by the `"> "` prompt. -/

/-- Splits a character list at the first space: everything before it
and everything after it (the whole list and nothing when there is no
space). -/
def splitCommandChars : List Char → List Char × List Char
  | [] => ([], [])
  | c :: cs =>
    if c = ' ' then ([], cs)
    else
      let (a, b) := splitCommandChars cs
      (c :: a, b)

/-- Python `line.split(' ', 1)` wrapped in the `if ' ' in line` test of
lines 304-308: the first word and the remainder after the first space
(empty when the line has no space). -/
def splitCommand (line : String) : String × String :=
  let (a, b) := splitCommandChars line.toList
  (String.mk a, String.mk b)

/-- The `status` command's output (lines 310-312): one line per node, in
node order. -/
def statusLines (nodes : List Node) : String :=
  String.join (nodes.map (fun nd => nd.name ++ ": " ++ nd.status ++ "\n"))

/-- Network.get_node together with the list position of the match, so
the in-place mutation of the found node can be reflected back. -/
def getNodeWithIndex (nodes : List Node) (name : String) : Option (Nat × Node) :=
  nodes.enum.find? (fun p => p.snd.name == name)

/-- Handling of one nonempty command line (lines 304-335): returns the
bytes sent while handling it, the updated node list, and — for the
`start` command, whose `node.start` call can raise — the uncaught
exception that terminates the handler. -/
def respond (line : String) (nodes : List Node) (governorKeysExist : Bool)
    (env : StartEnv) : String × List Node × Option String :=
  let (cmd, args) := splitCommand line
  if cmd = "status" then
    (statusLines nodes ++ "> ", nodes, none)
  else if cmd = "stop" then
    match getNodeWithIndex nodes args with
    | some (i, nd) =>
      ("Stopped " ++ args ++ ".\n> ", nodes.set i nd.stop, none)
    | none => ("Unknown node " ++ args ++ "\n> ", nodes, none)
  else if cmd = "start" then
    match getNodeWithIndex nodes args with
    | some (i, nd) =>
      -- node.stop() mutates in place, then node.start(network) runs
      -- against the updated list
      let nodes1 := nodes.set i nd.stop
      let r := (nd.stop).start nodes1 governorKeysExist env
      let nodes2 := nodes1.set i r.node
      match r.error with
      | some e => ("", nodes2, some e)
      | none => ("Started " ++ args ++ ".\n> ", nodes2, none)
    | none => ("Unknown node " ++ args ++ "\n> ", nodes, none)
  else
    ("Unknown command\n> ", nodes, none)

/-- What one `self.rfile.readline().strip().decode()` call yields: a
(possibly empty) line, or an I/O exception caught by the bare `except`
(lines 296-299).  A closed connection yields the empty line forever. -/
inductive ReadResult : Type where
  | line (s : String)
  | exn
deriving Repr

/-- Fuel-indexed run of the handler's `while True` loop (lines
295-335).  `input k` is what the k-th read yields.  Returns the bytes
sent, the final node list, and whether the loop terminated (by the
`except: return` or by an uncaught exception) within `fuel` iterations;
`false` means it was still looping. -/
def runLoop (governorKeysExist : Bool) (env : StartEnv) :
    Nat → (Nat → ReadResult) → Nat → List Node → String × List Node × Bool
  | 0, _, _, nodes => ("", nodes, false)
  | fuel + 1, input, i, nodes =>
    match input i with
    | .exn => ("", nodes, true)
    | .line s =>
      if s = "" then
        -- lines 301-302: `if not line: continue` — nothing is sent
        runLoop governorKeysExist env fuel input (i + 1) nodes
      else
        match respond s nodes governorKeysExist env with
        | (out, nodes', none) =>
          let (o, n', t) := runLoop governorKeysExist env fuel input (i + 1) nodes'
          (out ++ o, n', t)
        | (out, nodes', some _) => (out, nodes', true)

/-! ## Concrete fixtures used by counterexamples and witnesses -/

/-- A two-member quorum set naming node b. -/
def qsB : QuorumSet := ⟨1, [Member.mname "b"]⟩

/-- A quorum set naming node a. -/
def qsA : QuorumSet := ⟨1, [Member.mname "a"]⟩

/-- Node a of the example network: its only peer is b with
`broadcast_consensus_msgs=False` (as in the `ring5b` preset edges). -/
def nodeA : Node :=
  Node.init "a" 0 3200 3300 3400 3500 [⟨"b", false⟩] qsB none "pkA"

/-- Node b of the example network. -/
def nodeB : Node :=
  Node.init "b" 1 3201 3301 3401 3501 [] qsA none "pkB"

/-- The example two-node network, built through `add_node`. -/
def net2ab : Network :=
  ((Network.new none).add_node "a" [⟨"b", false⟩] qsB "pkA").add_node "b" [] qsA "pkB"

/-- An environment where every spawn succeeds and every ledger database
file appears. -/
def envsOk : Nat → StartEnv := fun _ => ⟨100, 101, 102, LedgerWait.appears⟩

/-- A node whose consensus process has already exited (pid 42, exit
code 1) and whose sidecar handles are clear. -/
def exNodeC1 : Node :=
  { (Node.init "node1" 0 3200 3300 3400 3500 [] ⟨1, []⟩ none "pk") with
    consensus_process := Handle.proc 42 (some 1) }

/-! ## Claim C1 -/

/-- C1 counterexample: the claim says that after `stop()` all three
process handles are null and `status()` returns "stopped" for every
prior state, including an exited process.  But `stop()` guards each
branch with `poll() is None`, so for a node whose consensus process has
already exited the handle is left in place and `status()` still
returns "exited". -/
theorem c1_counterexample :
    (Node.stop exNodeC1).consensus_process ≠ Handle.null ∧
    (Node.stop exNodeC1).status = "exited" := by
  exact ⟨by decide, rfl⟩

/-- Whether `stop()` clears one handle: exactly when it was already
null or its process was still running. -/
theorem stopHandle_null_iff (h : Handle) :
    stopHandle h = Handle.null ↔ (h = Handle.null ∨ h.isRunning = true) := by
  cases h with
  | null => simp [stopHandle, Handle.isRunning]
  | proc pid c => cases c <;> simp [stopHandle, Handle.isRunning]

/-- C1 amended: after `stop()` each of the three handles is null iff it
was null or its process was still running, and a subsequent `status()`
returns "stopped" iff the consensus process was absent or still
running; a consensus handle whose process had already exited is left in
place and `status()` remains "exited". -/
theorem c1_stop_clears_only_running (n : Node) :
    ((Node.stop n).consensus_process = Handle.null ↔
      (n.consensus_process = Handle.null ∨ n.consensus_process.isRunning = true)) ∧
    ((Node.stop n).ledger_distribution_process = Handle.null ↔
      (n.ledger_distribution_process = Handle.null ∨
        n.ledger_distribution_process.isRunning = true)) ∧
    ((Node.stop n).admin_http_gateway_process = Handle.null ↔
      (n.admin_http_gateway_process = Handle.null ∨
        n.admin_http_gateway_process.isRunning = true)) ∧
    ((Node.stop n).status = "stopped" ↔
      (n.consensus_process = Handle.null ∨ n.consensus_process.isRunning = true)) ∧
    (n.consensus_process.isExited = true → (Node.stop n).status = "exited") := by
  refine ⟨stopHandle_null_iff _, stopHandle_null_iff _, stopHandle_null_iff _, ?_, ?_⟩
  · cases hc : n.consensus_process with
    | null => simp [Node.stop, Node.status, hc, stopHandle, Handle.isRunning]
    | proc pid c =>
      cases c with
      | none => simp [Node.stop, Node.status, hc, stopHandle, Handle.isRunning]
      | some code => simp [Node.stop, Node.status, hc, stopHandle, Handle.isRunning]
  · intro hex
    cases hc : n.consensus_process with
    | null => rw [hc] at hex; exact absurd hex (by simp [Handle.isExited])
    | proc pid c =>
      cases c with
      | none => rw [hc] at hex; exact absurd hex (by simp [Handle.isExited])
      | some code => simp [Node.stop, Node.status, hc, stopHandle]

/-- C1 witness: the amended statement on the exited-process fixture. -/
theorem c1_witness :
    ((Node.stop exNodeC1).consensus_process = Handle.null ↔
      (exNodeC1.consensus_process = Handle.null ∨
        exNodeC1.consensus_process.isRunning = true)) ∧
    (Node.stop exNodeC1).status = "exited" :=
  ⟨(c1_stop_clears_only_running exNodeC1).1,
    (c1_stop_clears_only_running exNodeC1).2.2.2.2 rfl⟩

/-! ## Claim C2 -/

/-- C2: calling `start()` on a node whose consensus handle is non-null
fails at the `assert not self.consensus_process` precondition: the
result carries an AssertionError, an empty effect trace (so no process
was spawned, in particular no second consensus process), and the node
is unchanged. -/
theorem c2_start_asserts (n : Node) (nodes : List Node) (gov : Bool)
    (env : StartEnv) (h : n.consensus_process ≠ Handle.null) :
    n.start nodes gov env = ⟨[], n, some "AssertionError"⟩ := by
  cases hc : n.consensus_process with
  | null => exact absurd hc h
  | proc pid c => simp [Node.start, hc, Handle.isSet]

/-- C2 witness: `start()` on the exited-process fixture node. -/
theorem c2_witness :
    exNodeC1.start [] true ⟨1, 2, 3, LedgerWait.appears⟩ =
      ⟨[], exNodeC1, some "AssertionError"⟩ :=
  c2_start_asserts exNodeC1 [] true ⟨1, 2, 3, LedgerWait.appears⟩ (by decide)

/-! ## Claim C10 -/

/-- C10: a `Node` constructed with a falsy `block_version` argument
(`None` or `0`) gets `block_version = 2` (source: `self.block_version =
block_version or 2`); in particular a requested block version 0
silently becomes 2. -/
theorem c10_falsy_block_version (name : String)
    (num cp pp ap ag : Nat) (peers : List Peer) (qs : QuorumSet)
    (bv : Option Int) (pk : String) (h : bv = none ∨ bv = some 0) :
    (Node.init name num cp pp ap ag peers qs bv pk).block_version = 2 := by
  rcases h with h | h <;> subst h <;> simp [Node.init, pyOrTwo]

/-- C10 witness: an explicitly requested block version 0 becomes 2. -/
theorem c10_witness :
    (Node.init "n" 0 3200 3300 3400 3500 [] ⟨1, []⟩ (some 0) "pk").block_version = 2 :=
  c10_falsy_block_version "n" 0 3200 3300 3400 3500 [] ⟨1, []⟩ (some 0) "pk"
    (Or.inr rfl)

/-! ## Claim C8 -/

/-- C8: on the command line "status" the handler sends exactly one line
per node of the network, in node order, of the form `name: status`,
followed by the literal prompt `"> "`, leaves the nodes untouched and
raises nothing; and every node's status string is "stopped", "exited"
or "running, pid=n". -/
theorem c8_status_command (nodes : List Node) (gov : Bool) (env : StartEnv) :
    respond "status" nodes gov env =
      (String.join (nodes.map (fun nd => nd.name ++ ": " ++ nd.status ++ "\n")) ++ "> ",
        nodes, none) ∧
    ∀ nd : Node, nd.status = "stopped" ∨ nd.status = "exited" ∨
      ∃ p : Nat, nd.status = "running, pid=" ++ toString p := by
  refine ⟨rfl, ?_⟩
  intro nd
  cases hc : nd.consensus_process with
  | null => exact Or.inl (by simp [Node.status, hc])
  | proc pid c =>
    cases c with
    | none => exact Or.inr (Or.inr ⟨pid, by simp [Node.status, hc]⟩)
    | some code => exact Or.inr (Or.inl (by simp [Node.status, hc]))

/-! ## Claim C9 -/

/-- C9: an empty command line makes the handler send nothing (no error
line, no prompt) and just read again; and against an input stream that
yields the empty line forever — which is what every read returns once
the peer has closed the connection — the handler loop never terminates:
after any number of iterations it has sent nothing, changed nothing,
and is still looping. -/
theorem c9_empty_line_never_terminates (gov : Bool) (env : StartEnv) :
    (∀ (input : Nat → ReadResult) (fuel i : Nat) (nodes : List Node),
      input i = ReadResult.line "" →
      runLoop gov env (fuel + 1) input i nodes =
        runLoop gov env fuel input (i + 1) nodes) ∧
    (∀ (fuel i : Nat) (nodes : List Node),
      runLoop gov env fuel (fun _ => ReadResult.line "") i nodes =
        ("", nodes, false)) := by
  constructor
  · intro input fuel i nodes h
    simp [runLoop, h]
  · intro fuel
    induction fuel with
    | zero => intro i nodes; rfl
    | succ k ih => intro i nodes; simpa [runLoop] using ih (i + 1) nodes

/-- C9 witness: one iteration on an empty line at a concrete state. -/
theorem c9_witness :
    runLoop true ⟨1, 2, 3, LedgerWait.appears⟩ 1 (fun _ => ReadResult.line "") 0
        [nodeA, nodeB] =
      runLoop true ⟨1, 2, 3, LedgerWait.appears⟩ 0 (fun _ => ReadResult.line "") 1
        [nodeA, nodeB] :=
  (c9_empty_line_never_terminates true ⟨1, 2, 3, LedgerWait.appears⟩).1
    (fun _ => ReadResult.line "") 0 0 [nodeA, nodeB] rfl

/-! ## Claim C6 -/

/-- The topology JSON that `start()` writes for `nodeA` in the two-node
example network. -/
def topoA : TopologyJson :=
  ⟨⟨1, [RMember.node "localhost:3301"]⟩,
    ["insecure-mcp://localhost:3301/?consensus-msg-key=pkB&broadcast-consensus-msgs=0"],
    [],
    ["file://mc-local-network/node-ledger-distribution-1"]⟩

/-- C6 counterexample: `nodeA`'s only peer is b with
`broadcast_consensus_msgs=False`, so by the claim its `tx_source_urls`
should be empty; but the source filters on the full peer-name list
(line 146), so b's ledger-distribution URL is included. -/
theorem c6_counterexample :
    nodeA.peers.map Peer.broadcast_consensus_msgs = [false] ∧
    Except.map TopologyJson.tx_source_urls (topologyJson nodeA [nodeA, nodeB]) =
      Except.ok ["file://mc-local-network/node-ledger-distribution-1"] :=
  ⟨rfl, rfl⟩

/-- When the topology JSON is assembled successfully, its
`tx_source_urls` field is exactly `txSourceUrls`. -/
theorem topologyJson_tx_source_urls (self : Node) (nodes : List Node)
    (t : TopologyJson) (h : topologyJson self nodes = Except.ok t) :
    t.tx_source_urls = txSourceUrls self nodes := by
  unfold topologyJson at h
  cases hb : broadcastPeers self nodes with
  | none => rw [hb] at h; exact absurd h (by simp)
  | some bps =>
    rw [hb] at h
    cases hq : self.quorum_set.resolve_to_json
        (fun s => (nodesByName nodes s).map Node.peer_port) with
    | error e => rw [hq] at h; exact absurd h (by simp)
    | ok qj =>
      rw [hq] at h
      cases h
      rfl

/-- C6 amended: the `tx_source_urls` list written into a node's
topology JSON contains exactly the ledger-distribution directory URLs
of its direct peers — all of them, whether their
`broadcast_consensus_msgs` flag is true or false (the source filters on
the peer-name list, not on the broadcast flag). -/
theorem c6_tx_source_urls_all_peers (self : Node) (nodes : List Node)
    (t : TopologyJson) (h : topologyJson self nodes = Except.ok t) (url : String) :
    url ∈ t.tx_source_urls ↔
      ∃ nd, nd ∈ nodes ∧ (∃ p, p ∈ self.peers ∧ p.name = nd.name) ∧
        url = "file://" ++ nd.ledger_distribution_dir := by
  rw [topologyJson_tx_source_urls self nodes t h]
  simp only [txSourceUrls, List.mem_map, List.mem_filter]
  constructor
  · rintro ⟨nd, ⟨hmem, hcont⟩, hurl⟩
    refine ⟨nd, hmem, ?_, hurl.symm⟩
    have : nd.name ∈ self.peers.map Peer.name := by
      simpa using hcont
    rcases List.mem_map.mp this with ⟨p, hp, hpn⟩
    exact ⟨p, hp, hpn⟩
  · rintro ⟨nd, hmem, ⟨p, hp, hpn⟩, hurl⟩
    refine ⟨nd, ⟨hmem, ?_⟩, hurl.symm⟩
    have : nd.name ∈ self.peers.map Peer.name :=
      List.mem_map.mpr ⟨p, hp, hpn⟩
    simpa using this

/-- C6 witness: the amended statement evaluated on the concrete
two-node network, at b's ledger-distribution URL. -/
theorem c6_witness :
    "file://mc-local-network/node-ledger-distribution-1" ∈ topoA.tx_source_urls ↔
      ∃ nd, nd ∈ [nodeA, nodeB] ∧ (∃ p, p ∈ nodeA.peers ∧ p.name = nd.name) ∧
        "file://mc-local-network/node-ledger-distribution-1" =
          "file://" ++ nd.ledger_distribution_dir :=
  c6_tx_source_urls_all_peers nodeA [nodeA, nodeB] topoA rfl
    "file://mc-local-network/node-ledger-distribution-1"

/-! ## Claim C7 -/

/-- C7 counterexample: on a freshly constructed two-node network the
first `Network.start()` succeeds, but — contrary to the claim that
`start()` "may be called repeatedly, succeeding without error" — the
second call raises `FileExistsError` in `generate_minting_keys`,
because `os.mkdir(MINTING_KEYS_DIR)` finds the directory left behind by
the first call (only `Network.__init__` recreates the work
directory). -/
theorem c7_counterexample :
    (net2ab.start envsOk).2 = none ∧
    ((net2ab.start envsOk).1.start envsOk).2 =
      some "FileExistsError: minting-keys" :=
  ⟨rfl, rfl⟩

/-- Network.start always leaves the minting-keys directory in
existence, whether it succeeds or fails. -/
theorem networkStart_sets_minting_flag (net : Network) (envs : Nat → StartEnv) :
    (net.start envs).1.mintingKeysDirExists = true := by
  unfold Network.start Network.generate_minting_keys
  by_cases h : (Network.stop net).mintingKeysDirExists
  · simp [h]
  · rcases hseq : startNodesSeq envs true
        ({ Network.stop net with mintingKeysDirExists := true } : Network).nodes.length 0
        ({ Network.stop net with mintingKeysDirExists := true } : Network).nodes
      with ⟨nodes', err⟩
    simp [h, hseq]
    cases err <;> simp

/-- Network.start fails at `generate_minting_keys` whenever the
minting-keys directory already exists. -/
theorem networkStart_fails_when_minting_dir_exists (net : Network)
    (envs : Nat → StartEnv) (h : net.mintingKeysDirExists = true) :
    (net.start envs).2 = some "FileExistsError: minting-keys" := by
  have hs : (Network.stop net).mintingKeysDirExists = true := h
  unfold Network.start Network.generate_minting_keys
  simp [hs]

/-- C7 amended: `Network.start()` is not repeatable.  Every call first
tears down the control server and best-effort-kills stale processes by
binary name, but it does not recreate the working directory (only the
constructor does); and since any call leaves the minting-keys directory
behind, every later `start()` on the same network fails with
`FileExistsError` in `generate_minting_keys` before starting any
node. -/
theorem c7_second_start_raises (net : Network) (envs envs' : Nat → StartEnv) :
    (net.start envs).1.mintingKeysDirExists = true ∧
    ((net.start envs).1.start envs').2 = some "FileExistsError: minting-keys" :=
  ⟨networkStart_sets_minting_flag net envs,
    networkStart_fails_when_minting_dir_exists _ envs'
      (networkStart_sets_minting_flag net envs)⟩

/-! ## Claim C3 -/

/-- The four assigned ports of a node, in source order. -/
def portTuple (nd : Node) : Nat × Nat × Nat × Nat :=
  (nd.client_port, nd.peer_port, nd.admin_port, nd.admin_http_gateway_port)

/-- A sequence of `add_node` calls, as `default_entry_point`'s presets
perform them: each entry is the `(name, peers, quorum_set)` arguments
plus the fresh key material for that node. -/
def Network.addAll (net : Network) :
    List (String × List Peer × QuorumSet × String) → Network
  | [] => net
  | (name, ps, qs, pk) :: rest => (net.add_node name ps qs pk).addAll rest

/-- Every node's port tuple is the four base ports offset by its list
index. -/
def portsFromIndex (nodes : List Node) : Prop :=
  ∀ i (h : i < nodes.length),
    portTuple (nodes.get ⟨i, h⟩) =
      (BASE_CLIENT_PORT + i, BASE_PEER_PORT + i, BASE_ADMIN_PORT + i,
        BASE_ADMIN_HTTP_GATEWAY_PORT + i)

/-- `add_node` preserves index-determined ports: the appended node gets
index `length` and ports base + length. -/
theorem add_node_portsFromIndex (net : Network) (h : portsFromIndex net.nodes)
    (name : String) (ps : List Peer) (qs : QuorumSet) (pk : String) :
    portsFromIndex (net.add_node name ps qs pk).nodes := by
  intro i hi
  have hi' : i < net.nodes.length + 1 := by
    simpa [Network.add_node] using hi
  rcases Nat.lt_or_ge i net.nodes.length with hlt | hge
  · have : (net.add_node name ps qs pk).nodes.get ⟨i, hi⟩ = net.nodes.get ⟨i, hlt⟩ := by
      simp [Network.add_node, List.getElem_append_left hlt]
    rw [this]
    exact h i hlt
  · have hieq : i = net.nodes.length := by omega
    subst hieq
    have : (net.add_node name ps qs pk).nodes.get ⟨net.nodes.length, hi⟩ =
        Node.init name net.nodes.length (BASE_CLIENT_PORT + net.nodes.length)
          (BASE_PEER_PORT + net.nodes.length) (BASE_ADMIN_PORT + net.nodes.length)
          (BASE_ADMIN_HTTP_GATEWAY_PORT + net.nodes.length) ps qs
          net.block_version pk := by
      simp [Network.add_node]
    rw [this]
    rfl

/-- A whole `addAll` run preserves index-determined ports. -/
theorem addAll_portsFromIndex
    (specs : List (String × List Peer × QuorumSet × String)) :
    ∀ net : Network, portsFromIndex net.nodes →
      portsFromIndex (net.addAll specs).nodes := by
  induction specs with
  | nil => intro net h; exact h
  | cons s rest ih =>
    intro net h
    obtain ⟨name, ps, qs, pk⟩ := s
    exact ih _ (add_node_portsFromIndex net h name ps qs pk)

/-- C3: in any network built by a sequence of `add_node` calls, every
node's `(client_port, peer_port, admin_port, admin_http_gateway_port)`
tuple is the deterministic function base-port + index of its sequential
index, and the tuples of two distinct nodes differ. -/
theorem c3_ports_deterministic_and_distinct (bv : Option Int)
    (specs : List (String × List Peer × QuorumSet × String)) (i j : Nat)
    (hi : i < ((Network.new bv).addAll specs).nodes.length)
    (hj : j < ((Network.new bv).addAll specs).nodes.length) :
    portTuple (((Network.new bv).addAll specs).nodes.get ⟨i, hi⟩) =
      (BASE_CLIENT_PORT + i, BASE_PEER_PORT + i, BASE_ADMIN_PORT + i,
        BASE_ADMIN_HTTP_GATEWAY_PORT + i) ∧
    (i ≠ j →
      portTuple (((Network.new bv).addAll specs).nodes.get ⟨i, hi⟩) ≠
        portTuple (((Network.new bv).addAll specs).nodes.get ⟨j, hj⟩)) := by
  have hbase : portsFromIndex (Network.new bv).nodes := by
    intro k hk
    simp [Network.new] at hk
  have hall := addAll_portsFromIndex specs (Network.new bv) hbase
  refine ⟨hall i hi, fun hne heq => ?_⟩
  rw [hall i hi, hall j hj] at heq
  simp only [Prod.mk.injEq, BASE_CLIENT_PORT] at heq
  omega

/-- The `add_node` argument lists for a two-node example network. -/
def specs3 : List (String × List Peer × QuorumSet × String) :=
  [("a", [], qsA, "p0"), ("b", [], qsA, "p1")]

/-- C3 witness: the two nodes of the concrete example get ports
3200/3300/3400/3500 and 3201/3301/3401/3501, which differ. -/
theorem c3_witness :
    portTuple (((Network.new none).addAll specs3).nodes.get ⟨0, by decide⟩) =
      (3200, 3300, 3400, 3500) ∧
    portTuple (((Network.new none).addAll specs3).nodes.get ⟨0, by decide⟩) ≠
      portTuple (((Network.new none).addAll specs3).nodes.get ⟨1, by decide⟩) := by
  have h := c3_ports_deterministic_and_distinct none specs3 0 1 (by decide) (by decide)
  exact ⟨h.1, h.2 (by decide)⟩

/-! ## Claim C5 -/

/-- Lookup map of the one-node example: only "a", with peer port 3300. -/
def lookup5 : String → Option Nat := fun s => if s = "a" then some 3300 else none

/-- C5 counterexample: `resolve_to_json` performs no threshold check,
so a quorum set with threshold 2 and a single member resolves
successfully to a wire structure violating `threshold <= len(members)`. -/
theorem c5_counterexample :
    QuorumSet.resolve_to_json ⟨2, [Member.mname "a"]⟩ lookup5 =
      Except.ok ⟨2, [RMember.node "localhost:3300"]⟩ ∧
    RJson.inv ⟨2, [RMember.node "localhost:3300"]⟩ = false :=
  ⟨rfl, rfl⟩

mutual

/-- A successfully resolved member satisfies the threshold invariant
exactly when the input member did: resolution preserves each nested
threshold and each nested member count and checks nothing. -/
theorem resolveMember_inv_eq (lookup : String → Option Nat) :
    ∀ (m : Member) (r : RMember), resolveMember lookup m = Except.ok r →
      RMember.inv r = Member.inv m
  | .mname s, r, h => by
    unfold resolveMember at h
    cases hl : lookup s with
    | none => rw [hl] at h; exact absurd h (by simp)
    | some p =>
      rw [hl] at h
      injection h with h
      subst h
      rfl
  | .minner t ms, r, h => by
    unfold resolveMember at h
    cases hms : resolveMembers lookup ms with
    | error e => rw [hms] at h; exact absurd h (by simp)
    | ok rs =>
      rw [hms] at h
      injection h with h
      subst h
      have hrec := resolveMembers_inv_eq lookup ms rs hms
      simp [RMember.inv, Member.inv, hrec.1, hrec.2]
  | .mother, r, h => by
    exact absurd h (by simp [resolveMember])

/-- List version of `resolveMember_inv_eq`, also recording that the
resolved list has the same length. -/
theorem resolveMembers_inv_eq (lookup : String → Option Nat) :
    ∀ (ms : List Member) (rs : List RMember),
      resolveMembers lookup ms = Except.ok rs →
      rmembersInv rs = membersInv ms ∧ rs.length = ms.length
  | [], rs, h => by
    unfold resolveMembers at h
    injection h with h
    subst h
    exact ⟨rfl, rfl⟩
  | m :: ms, rs, h => by
    unfold resolveMembers at h
    cases hm : resolveMember lookup m with
    | error e => rw [hm] at h; exact absurd h (by simp)
    | ok r =>
      rw [hm] at h
      cases hms : resolveMembers lookup ms with
      | error e => rw [hms] at h; exact absurd h (by simp)
      | ok rs' =>
        rw [hms] at h
        injection h with h
        subst h
        have h1 := resolveMember_inv_eq lookup m r hm
        have h2 := resolveMembers_inv_eq lookup ms rs' hms
        simp [rmembersInv, membersInv, h1, h2.1, h2.2]

end

/-- C5 amended: resolution preserves every threshold and every member
count, so the invariant `threshold <= len(members)` holds on the
resolved structure exactly when it held on the input quorum set;
`resolve_to_json` itself never establishes or checks it. -/
theorem c5_inv_preserved_not_established (q : QuorumSet)
    (lookup : String → Option Nat) (r : RJson)
    (h : q.resolve_to_json lookup = Except.ok r) :
    r.threshold = q.threshold ∧ r.members.length = q.members.length ∧
      RJson.inv r = QuorumSet.inv q := by
  unfold QuorumSet.resolve_to_json at h
  cases hms : resolveMembers lookup q.members with
  | error e => rw [hms] at h; exact absurd h (by simp)
  | ok rs =>
    rw [hms] at h
    injection h with h
    subst h
    have h2 := resolveMembers_inv_eq lookup q.members rs hms
    exact ⟨rfl, h2.2, by simp [RJson.inv, QuorumSet.inv, h2.1, h2.2]⟩

/-- C5 witness: the amended statement at a valid one-member set. -/
theorem c5_witness :
    (⟨1, [RMember.node "localhost:3300"]⟩ : RJson).threshold =
      (⟨1, [Member.mname "a"]⟩ : QuorumSet).threshold ∧
    (⟨1, [RMember.node "localhost:3300"]⟩ : RJson).members.length =
      (⟨1, [Member.mname "a"]⟩ : QuorumSet).members.length ∧
    RJson.inv ⟨1, [RMember.node "localhost:3300"]⟩ =
      QuorumSet.inv ⟨1, [Member.mname "a"]⟩ :=
  c5_inv_preserved_not_established ⟨1, [Member.mname "a"]⟩ lookup5
    ⟨1, [RMember.node "localhost:3300"]⟩ rfl

/-! ## Claim C4 -/

mutual

/-- On a member whose names are all present: if no unsupported-type
member occurs, the source resolution agrees with the spec-described
mapping; if one occurs, the source resolution raises. -/
theorem resolveMember_spec (lookup : String → Option Nat) :
    ∀ m : Member, Member.namesPresent lookup m = true →
      (Member.hasOther m = false →
        ∃ r, specResolveMember lookup m = some r ∧
          resolveMember lookup m = Except.ok r) ∧
      (Member.hasOther m = true → ∃ e, resolveMember lookup m = Except.error e)
  | .mname s, hn => by
    constructor
    · intro _
      cases hl : lookup s with
      | none =>
        unfold Member.namesPresent at hn
        rw [hl] at hn
        simp at hn
      | some p =>
        exact ⟨.node ("localhost:" ++ toString p),
          by simp [specResolveMember, hl], by simp [resolveMember, hl]⟩
    · intro hother
      exact absurd hother (by simp [Member.hasOther])
  | .minner t ms, hn => by
    have hn' : membersNamesPresent lookup ms = true := hn
    have hrec := resolveMembers_spec lookup ms hn'
    constructor
    · intro hother
      obtain ⟨rs, hs, hr⟩ := hrec.1 hother
      exact ⟨.innerSet t rs, by simp [specResolveMember, hs],
        by simp [resolveMember, hr]⟩
    · intro hother
      obtain ⟨e, he⟩ := hrec.2 hother
      exact ⟨e, by simp [resolveMember, he]⟩
  | .mother, _ => by
    constructor
    · intro hother
      exact absurd hother (by simp [Member.hasOther])
    · intro _
      exact ⟨"Unsupported member type", rfl⟩

/-- List version of `resolveMember_spec`, following the member loop. -/
theorem resolveMembers_spec (lookup : String → Option Nat) :
    ∀ ms : List Member, membersNamesPresent lookup ms = true →
      (membersHaveOther ms = false →
        ∃ rs, specResolveMembers lookup ms = some rs ∧
          resolveMembers lookup ms = Except.ok rs) ∧
      (membersHaveOther ms = true →
        ∃ e, resolveMembers lookup ms = Except.error e)
  | [], _ => by
    constructor
    · intro _
      exact ⟨[], rfl, rfl⟩
    · intro h
      exact absurd h (by simp [membersHaveOther])
  | m :: ms, hn => by
    have hn2 : Member.namesPresent lookup m = true ∧
        membersNamesPresent lookup ms = true := by
      simpa [membersNamesPresent] using hn
    have hm := resolveMember_spec lookup m hn2.1
    have hms := resolveMembers_spec lookup ms hn2.2
    constructor
    · intro hother
      have hbo : Member.hasOther m = false ∧ membersHaveOther ms = false := by
        simpa [membersHaveOther] using hother
      obtain ⟨r, hs1, hr1⟩ := hm.1 hbo.1
      obtain ⟨rs, hs2, hr2⟩ := hms.1 hbo.2
      exact ⟨r :: rs, by simp [specResolveMembers, hs1, hs2],
        by simp [resolveMembers, hr1, hr2]⟩
    · intro hother
      cases hmo : Member.hasOther m with
      | true =>
        obtain ⟨e, he⟩ := hm.2 hmo
        exact ⟨e, by simp [resolveMembers, he]⟩
      | false =>
        have hrest : membersHaveOther ms = true := by
          have h' := hother
          unfold membersHaveOther at h'
          rw [hmo] at h'
          simpa using h'
        obtain ⟨r, hs1, hr1⟩ := hm.1 hmo
        obtain ⟨e, he⟩ := hms.2 hrest
        exact ⟨e, by simp [resolveMembers, hr1, he]⟩

end

/-- C4: for a quorum set all of whose member names are in
`nodes_by_name`, `resolve_to_json` returns the threshold unchanged and
the members mapped exactly as the spec describes (plain name to a Node
entry `localhost:peer_port`, nested set to a recursively resolved
InnerSet entry), and raises as soon as any member of any other type
occurs. -/
theorem c4_resolve_matches_spec (q : QuorumSet) (lookup : String → Option Nat)
    (hnames : q.namesPresent lookup = true) :
    (q.hasOther = false →
      ∃ rs, specResolveMembers lookup q.members = some rs ∧
        q.resolve_to_json lookup = Except.ok ⟨q.threshold, rs⟩) ∧
    (q.hasOther = true → ∃ e, q.resolve_to_json lookup = Except.error e) := by
  have h := resolveMembers_spec lookup q.members hnames
  constructor
  · intro ho
    obtain ⟨rs, hs, hr⟩ := h.1 ho
    exact ⟨rs, hs, by simp [QuorumSet.resolve_to_json, hr]⟩
  · intro ho
    obtain ⟨e, he⟩ := h.2 ho
    exact ⟨e, by simp [QuorumSet.resolve_to_json, he]⟩

/-- C4 witness: a two-member set (a name and a nested inner set) with
every name present resolves as the spec prescribes. -/
theorem c4_witness :
    ∃ rs, specResolveMembers lookup5
        [Member.mname "a", Member.minner 1 [Member.mname "a"]] = some rs ∧
      QuorumSet.resolve_to_json
          ⟨2, [Member.mname "a", Member.minner 1 [Member.mname "a"]]⟩ lookup5 =
        Except.ok ⟨2, rs⟩ :=
  (c4_resolve_matches_spec
    ⟨2, [Member.mname "a", Member.minner 1 [Member.mname "a"]]⟩ lookup5 rfl).1 rfl

end LocalNetwork
